import Mathlib

/-
Verification of the Simulacra survival-simulation core.

The Python sources are shallowly embedded: Python `str` values become
`List Char`, Python `float` arithmetic becomes exact `ℚ` arithmetic,
Python `dict`/`set` become association lists or membership functions, and
code that can raise becomes `Option`-valued.  Every definition below is
translated from a named function of the repository; the source file and
line range are recorded in each doc comment.
-/

namespace Simulacra

/-- Convert a Lean string literal to the `List Char` representation used for
Python `str` values throughout this development. -/
def str (s : String) : List Char := s.toList

/-- `isPrefixL needle hay` : does `hay` start with `needle`?  Used to model
Python substring search. -/
def isPrefixL : List Char → List Char → Bool
  | [], _ => true
  | _ :: _, [] => false
  | a :: as, b :: bs => a = b && isPrefixL as bs

/-- The suffix of `hay` that follows the first occurrence of `needle`
(`none` when `needle` does not occur).  Models the part of Python
`hay.split(needle)` after the first separator. -/
def afterFirstL? (needle : List Char) : List Char → Option (List Char)
  | [] => if isPrefixL needle [] then some [] else none
  | c :: tl =>
    if isPrefixL needle (c :: tl) then some ((c :: tl).drop needle.length)
    else afterFirstL? needle tl

/-- The prefix of `hay` before the first occurrence of `needle` (all of `hay`
when `needle` does not occur).  Models `hay.split(needle)[0]` restricted to
its use sites. -/
def beforeFirstL (needle : List Char) : List Char → List Char
  | [] => []
  | c :: tl => if isPrefixL needle (c :: tl) then [] else c :: beforeFirstL needle tl

/-- Python `needle in hay` on strings. -/
def containsL (hay needle : List Char) : Bool := (afterFirstL? needle hay).isSome

/-- Python `hay.split(sep)[1]`: the text between the first and the second
occurrence of `sep`; `none` models the `IndexError` raised when `sep` does
not occur at all. -/
def splitSeg1? (sep hay : List Char) : Option (List Char) :=
  (afterFirstL? sep hay).map (fun r => beforeFirstL sep r)

/-- Python `s.split(c)[0]` for a single-character separator: the characters
before the first `c` (all of `s` when absent). -/
def takeBeforeChar (c : Char) (l : List Char) : List Char :=
  l.takeWhile (fun a => a ≠ c)

/-- Python `str.lower()`; the repository only lower-cases ASCII effect text,
where `Char.toLower` agrees with Python. -/
def toLowerL (l : List Char) : List Char := l.map Char.toLower

/-- Numeric value of a digit string (most significant first). -/
def natOfDigits (l : List Char) : Nat :=
  l.foldl (fun a c => a * 10 + (c.toNat - 48)) 0

/-- Python whitespace (`str.strip` / regex `\s`), ASCII range. -/
def isPySpace (c : Char) : Bool :=
  c = ' ' || c = '\t' || c = '\n' || c = '\r' || c = '\x0b' || c = '\x0c'

/-- Digits-with-optional-point part of a Python float literal: accepts
`"10"`, `"1."`, `".5"`, `"1.5"`; returns `(mantissa, fractionalDigits)` so
that the value is `mantissa / 10 ^ fractionalDigits`.  `none` models a
raised `ValueError`. -/
def pyFloatDigits? (cs : List Char) : Option (Int × Nat) :=
  let ip := cs.takeWhile Char.isDigit
  let rest := cs.drop ip.length
  match rest with
  | [] => if ip.isEmpty then none else some ((natOfDigits ip : Int), 0)
  | '.' :: rest2 =>
    let fp := rest2.takeWhile Char.isDigit
    if (rest2.drop fp.length).isEmpty then
      if ip.isEmpty && fp.isEmpty then none
      else some ((natOfDigits (ip ++ fp) : Int), fp.length)
    else none
  | _ => none

/-- Python `float(s)` on the literals this repository feeds it: optional
surrounding whitespace, optional sign, digits with an optional decimal
point.  (Exponents, `inf`/`nan` and digit underscores never occur in the
repository's effect texts and are modelled as failures.)  `none` models a
raised `ValueError`. -/
def pyFloatRaw? (cs : List Char) : Option (Int × Nat) :=
  let t := ((cs.dropWhile isPySpace).reverse.dropWhile isPySpace).reverse
  match t with
  | '+' :: r => pyFloatDigits? r
  | '-' :: r => (pyFloatDigits? r).map (fun p => (-p.1, p.2))
  | r => pyFloatDigits? r

/-- Python `float(s)` as an exact rational. -/
def pyFloat? (cs : List Char) : Option ℚ :=
  (pyFloatRaw? cs).map (fun p => (p.1 : ℚ) / 10 ^ p.2)

/-- Python `round()` to the nearest integer, ties to even, on exact
rationals.  (CPython rounds binary doubles; at the inputs reached in this
development the values are exact one-or-two-decimal quantities where the
binary representation does not change the result.) -/
def pyRoundEven (q : ℚ) : ℤ :=
  let f := ⌊q⌋
  let r := q - (f : ℚ)
  if r < 1/2 then f
  else if 1/2 < r then f + 1
  else if f % 2 = 0 then f else f + 1

/-- Python `round(q, 2)`. -/
def round2 (q : ℚ) : ℚ := (pyRoundEven (q * 100) : ℚ) / 100

/-- Lookup in an association list modelling a Python `dict` (`d.get(k)`). -/
def assocLookup {β : Type} (k : List Char) : List (List Char × β) → Option β
  | [] => none
  | (k', v) :: tl => if k' = k then some v else assocLookup k tl

/-- Update/insert in an association list modelling `d[k] = v` (replaces an
existing binding in place, else appends, as a Python dict does). -/
def assocSet {β : Type} (k : List Char) (v : β) : List (List Char × β) → List (List Char × β)
  | [] => [(k, v)]
  | (k', v') :: tl => if k' = k then (k', v) :: tl else (k', v') :: assocSet k v tl

/-
## EffectParser: `TraitManager.parse_effect` (modules/traits.py lines 243-260)
-/

/-- `TraitEffect` dataclass (modules/traits.py lines 38-53). -/
structure TraitEffect where
  type : List Char
  value : ℚ
  text : List Char
  rarity : List Char := str ("common")
deriving DecidableEq

/-- `TraitManager.parse_effect` (modules/traits.py lines 243-260).
`effect_text.split("%")[0].replace("+", "").replace("-", "")` is embedded as
`takeBeforeChar` plus removal of every `+`/`-` character; `float(...)` is
`pyFloat?`, so the result is `none` exactly when Python raises
`ValueError`. -/
def parse_effect (effect_text : List Char) : Option TraitEffect :=
  if containsL effect_text (str ("% HP")) then
    match pyFloat? (((takeBeforeChar '%' effect_text).filter (fun c => c ≠ '+')).filter
        (fun c => c ≠ '-')) with
    | some value =>
      some { type := str ("hp"),
             value := if containsL effect_text (str ("+")) then value else -value,
             text := effect_text }
    | none => none
  else if containsL effect_text (str ("Mutation Rate")) then
    match pyFloat? (((takeBeforeChar '%' effect_text).filter (fun c => c ≠ '+')).filter
        (fun c => c ≠ '-')) with
    | some value =>
      some { type := str ("mutation_rate"),
             value := if containsL effect_text (str ("+")) then value else -value,
             text := effect_text }
    | none => none
  else
    some { type := str ("unknown"), value := 0, text := effect_text }

/-
## Regex matchers used by `process_trait_effects` (modules/traits.py lines 841-882)

Each Python `re.search(pattern, text)` is embedded as a leftmost-position
search with the pattern's own deterministic matcher.  Greedy pieces whose
follower cannot overlap them (`\d+` before `%`, `\s*` before a letter)
are maximal-munch; `(\w+)` before `\s*damage` and `.*` before `reduction`
backtrack, which is embedded by trying the longest split first.
-/

/-- Regex `\w` (ASCII word character). -/
def isWordChar (c : Char) : Bool := c.isAlphanum || c = '_'

/-- Matcher for `([+-]\d+)%\s*hp` anchored at the head of `cs`; returns the
signed value of group 1. -/
def matchHpAt : List Char → Option ℤ
  | [] => none
  | s :: rest =>
    if s = '+' || s = '-' then
      let ds := rest.takeWhile Char.isDigit
      if ds.isEmpty then none
      else
        match rest.drop ds.length with
        | '%' :: r2 =>
          if isPrefixL (str ("hp")) (r2.dropWhile isPySpace) then
            some (if s = '+' then (natOfDigits ds : ℤ) else -(natOfDigits ds : ℤ))
          else none
        | _ => none
    else none

/-- `re.search(r'([+-]\d+)%\s*hp', text)`: leftmost match. -/
def searchHp : List Char → Option ℤ
  | [] => none
  | c :: tl =>
    match matchHpAt (c :: tl) with
    | some v => some v
    | none => searchHp tl

/-- Matcher for `(\d+)%\s*chance` anchored at the head of `cs`. -/
def matchChanceAt (cs : List Char) : Option ℕ :=
  let ds := cs.takeWhile Char.isDigit
  if ds.isEmpty then none
  else
    match cs.drop ds.length with
    | '%' :: r2 =>
      if isPrefixL (str ("chance")) (r2.dropWhile isPySpace) then some (natOfDigits ds)
      else none
    | _ => none

/-- `re.search(r'(\d+)%\s*chance', text)`: leftmost match. -/
def searchChance : List Char → Option ℕ
  | [] => none
  | c :: tl =>
    match matchChanceAt (c :: tl) with
    | some v => some v
    | none => searchChance tl

/-- Regex `.*lit` applied to `rest`: does `lit` start at some position of
`rest` whose preceding characters contain no newline (`.` does not match
`\n`)? -/
def dotStarThen (lit rest : List Char) : Bool :=
  (List.range (rest.length + 1)).any (fun p =>
    ((rest.take p).all (fun c => c ≠ '\n')) && isPrefixL lit (rest.drop p))

/-- Matcher for `(\d+)%\s*entropy.*reduction` anchored at the head. -/
def matchEntropyAt (cs : List Char) : Option ℕ :=
  let ds := cs.takeWhile Char.isDigit
  if ds.isEmpty then none
  else
    match cs.drop ds.length with
    | '%' :: r2 =>
      let r3 := r2.dropWhile isPySpace
      if isPrefixL (str ("entropy")) r3 then
        if dotStarThen (str ("reduction")) (r3.drop 7) then some (natOfDigits ds)
        else none
      else none
    | _ => none

/-- `re.search(r'(\d+)%\s*entropy.*reduction', text)`: leftmost match. -/
def searchEntropy : List Char → Option ℕ
  | [] => none
  | c :: tl =>
    match matchEntropyAt (c :: tl) with
    | some v => some v
    | none => searchEntropy tl

/-- The `\s*(\w+)\s*damage` tail of the resistance pattern, applied after the
literal `reduced`: returns group 2 (the damage type), with `(\w+)` greedy
(the longest word run whose remainder still matches `\s*damage`). -/
def reducedTail (r : List Char) : Option (List Char) :=
  let r2 := r.dropWhile isPySpace
  let w := r2.takeWhile isWordChar
  ((List.range w.length).reverse.find? (fun j =>
      isPrefixL (str ("damage")) ((r2.drop (j + 1)).dropWhile isPySpace))).map
    (fun j => r2.take (j + 1))

/-- Matcher for `(\d+)%\s*reduced\s*(\w+)\s*damage` anchored at the head. -/
def matchReducedAt (cs : List Char) : Option (ℕ × List Char) :=
  let ds := cs.takeWhile Char.isDigit
  if ds.isEmpty then none
  else
    match cs.drop ds.length with
    | '%' :: r2 =>
      let r3 := r2.dropWhile isPySpace
      if isPrefixL (str ("reduced")) r3 then
        (reducedTail (r3.drop 7)).map (fun w => (natOfDigits ds, w))
      else none
    | _ => none

/-- `re.search(r'(\d+)%\s*reduced\s*(\w+)\s*damage', text)`: leftmost match. -/
def searchReduced : List Char → Option (ℕ × List Char)
  | [] => none
  | c :: tl =>
    match matchReducedAt (c :: tl) with
    | some v => some v
    | none => searchReduced tl

/-
## Trait loadout records

Both resolution paths iterate `for effect in trait['effects']` and read the
effect's `'text'` entry; a trait is embedded as its name and effect texts.
-/

/-- A loadout trait dict: `{'name': ..., 'effects': [{'text': ...}, ...]}`. -/
structure TraitRec where
  name : List Char
  effects : List (List Char)
deriving DecidableEq

/-
## StatResolver, additive path: `apply_trait_effects` and its helpers
(modules/traits.py lines 727-808)
-/

/-- `parse_hp_modifier` (modules/traits.py lines 727-733).  `none` models the
`ValueError` raised by `float` on a malformed segment. -/
def parse_hp_modifier? (effect_text : List Char) : Option ℚ :=
  if containsL effect_text (str ("+%")) then
    (splitSeg1? (str ("+")) effect_text).bind (fun seg => pyFloat? (takeBeforeChar '%' seg))
  else if containsL effect_text (str ("-%")) then
    ((splitSeg1? (str ("-")) effect_text).bind
      (fun seg => pyFloat? (takeBeforeChar '%' seg))).map (fun v => -v)
  else some 0

/-- `parse_mutation_rate` (modules/traits.py lines 736-742); the source body
is identical to `parse_hp_modifier`. -/
def parse_mutation_rate? (effect_text : List Char) : Option ℚ :=
  if containsL effect_text (str ("+%")) then
    (splitSeg1? (str ("+")) effect_text).bind (fun seg => pyFloat? (takeBeforeChar '%' seg))
  else if containsL effect_text (str ("-%")) then
    ((splitSeg1? (str ("-")) effect_text).bind
      (fun seg => pyFloat? (takeBeforeChar '%' seg))).map (fun v => -v)
  else some 0

/-- `parse_immunity` (modules/traits.py lines 752-754):
`effect_text.split("Immune to ")[1].split(" ")[0].lower()`.  `none` models
the `IndexError` when `"Immune to "` (with trailing space) is absent. -/
def parse_immunity? (effect_text : List Char) : Option (List Char) :=
  (splitSeg1? (str ("Immune to ")) effect_text).map
    (fun seg => toLowerL (seg.takeWhile (fun c => c ≠ ' ')))

/-- The stats dict built by `create_base_stats` (modules/traits.py
lines 757-766). -/
structure BaseStats where
  base_hp : ℚ
  current_hp : ℚ
  max_hp : ℚ
  mutation_rate : ℚ
  resistances : List (List Char × ℚ)
  immunities : List (List Char)
deriving DecidableEq

/-- `create_base_stats` (modules/traits.py lines 757-766). -/
def create_base_stats : BaseStats :=
  { base_hp := 100, current_hp := 100, max_hp := 100, mutation_rate := 0,
    resistances := [], immunities := [] }

/-- `apply_hp_modifier` (modules/traits.py lines 769-774): only applied when
the accumulated multiplier is nonzero. -/
def apply_hp_modifier (stats : BaseStats) (hp_multiplier : ℚ) : BaseStats :=
  if hp_multiplier ≠ 0 then
    { stats with max_hp := stats.base_hp * (1 + hp_multiplier / 100),
                 current_hp := stats.base_hp * (1 + hp_multiplier / 100) }
  else stats

/-- One effect-text iteration of the loop in `apply_trait_effects`
(modules/traits.py lines 787-804): an `if/elif/elif` chain that accumulates
the HP percentage into the running multiplier and mutates the other stats
in place. -/
def ate_step (acc : BaseStats × ℚ) (effect_text : List Char) : Option (BaseStats × ℚ) :=
  let stats := acc.1
  let hp_multiplier := acc.2
  if containsL effect_text (str ("% HP")) then
    (parse_hp_modifier? effect_text).map (fun m => (stats, hp_multiplier + m))
  else if containsL effect_text (str ("Mutation Rate")) then
    (parse_mutation_rate? effect_text).map
      (fun m => ({ stats with mutation_rate := stats.mutation_rate + m }, hp_multiplier))
  else if containsL effect_text (str ("Immune to")) then
    (parse_immunity? effect_text).map (fun imm =>
      (if imm ∈ stats.immunities then stats
       else { stats with immunities := stats.immunities ++ [imm] }, hp_multiplier))
  else some acc

/-- The inner `for effect in trait.get('effects', [])` loop of
`apply_trait_effects`. -/
def ate_texts : List (List Char) → BaseStats × ℚ → Option (BaseStats × ℚ)
  | [], acc => some acc
  | t :: ts, acc => (ate_step acc t).bind (fun acc2 => ate_texts ts acc2)

/-- The outer `for trait in traits` loop of `apply_trait_effects`. -/
def ate_traits : List TraitRec → BaseStats × ℚ → Option (BaseStats × ℚ)
  | [], acc => some acc
  | tr :: trs, acc => (ate_texts tr.effects acc).bind (fun acc2 => ate_traits trs acc2)

/-- `apply_trait_effects` (modules/traits.py lines 777-808): fold every
trait's effects from the base stats, then apply the summed HP percentage
once.  `none` models a parser exception escaping the loop. -/
def apply_trait_effects (traits : List TraitRec) : Option BaseStats :=
  (ate_traits traits (create_base_stats, 0)).map (fun acc => apply_hp_modifier acc.1 acc.2)

/-- The summed HP-percent magnitude of one effect text, mirroring the HP
branch of `apply_trait_effects` (texts without the `"% HP"` marker
contribute nothing). -/
def hp_text_total? (t : List Char) : Option ℚ :=
  if containsL t (str ("% HP")) then parse_hp_modifier? t else some 0

/-- Sum of HP-percent magnitudes over a list of effect texts. -/
def hp_total_texts? : List (List Char) → Option ℚ
  | [] => some 0
  | t :: ts => (hp_text_total? t).bind (fun v => (hp_total_texts? ts).map (fun w => v + w))

/-- Sum of HP-percent magnitudes over a whole loadout. -/
def hp_total_traits? : List TraitRec → Option ℚ
  | [] => some 0
  | tr :: trs =>
    (hp_total_texts? tr.effects).bind (fun v => (hp_total_traits? trs).map (fun w => v + w))

/-
## StatResolver, multiplicative path: the later `process_trait_effects`
(modules/traits.py lines 841-882) and `calculate_initial_stats`
(lines 885-903), the pair called by `run_simulacra` (main.py line 275)
-/

/-- The stats dict built by `calculate_initial_stats` (modules/traits.py
lines 887-893).  `entropy_reduction` and `fire_resistance` model dict keys
that are absent (`none`) until written; no code path ever writes
`fire_resistance`, yet the fire branch reads it with
`stats.get('fire_resistance', 0)`. -/
structure RunStats where
  current_hp : ℚ
  max_hp : ℚ
  mutation_rate : ℚ
  resistances : List (List Char × ℚ)
  immunities : List (List Char)
  entropy_reduction : Option ℚ
  fire_resistance : Option ℚ
deriving DecidableEq

/-- The initial dict of `calculate_initial_stats` (modules/traits.py
lines 887-893). -/
def initial_run_stats : RunStats :=
  { current_hp := 100, max_hp := 100, mutation_rate := 0, resistances := [],
    immunities := [], entropy_reduction := none, fire_resistance := none }

/-- One effect iteration of the later `process_trait_effects`
(modules/traits.py lines 845-876): four independent `if` blocks over the
lower-cased text, executed in source order. -/
def pte_effect (acc : RunStats × ℚ) (effect_text : List Char) : RunStats × ℚ :=
  let stats := acc.1
  let hp_multiplier := acc.2
  let text := toLowerL effect_text
  let hp_multiplier :=
    if containsL text (str ("hp")) then
      match searchHp text with
      | some m => hp_multiplier * (1 + (m : ℚ) / 100)
      | none => hp_multiplier
    else hp_multiplier
  let stats :=
    if containsL text (str ("entropy")) && containsL text (str ("reduction")) then
      match searchEntropy text with
      | some v =>
        let current := stats.entropy_reduction.getD 0
        { stats with entropy_reduction := some (min 100 (current + (v : ℚ))) }
      | none => stats
    else stats
  let stats :=
    if containsL text (str ("chance to resist fire")) then
      match searchChance text with
      | some v =>
        let current := stats.fire_resistance.getD 0
        let newres := assocSet (str ("fire")) (min 100 (current + (v : ℚ))) stats.resistances
        { stats with resistances := newres }
      | none => stats
    else stats
  let stats :=
    if containsL text (str ("reduced")) && containsL text (str ("damage")) then
      match searchReduced text with
      | some vd =>
        let current := (assocLookup vd.2 stats.resistances).getD 0
        let newres := assocSet vd.2 (min 100 (current + (vd.1 : ℚ))) stats.resistances
        { stats with resistances := newres }
      | none => stats
    else stats
  (stats, hp_multiplier)

/-- The later `process_trait_effects` (modules/traits.py lines 841-882):
fold the trait's effects with a per-trait HP multiplier starting at 1, then
multiply `max_hp` by it, round to 2 decimals and copy into
`current_hp`. -/
def process_trait_effects (stats : RunStats) (trait : TraitRec) : RunStats :=
  let acc := trait.effects.foldl pte_effect (stats, 1)
  { acc.1 with max_hp := round2 (acc.1.max_hp * acc.2),
               current_hp := round2 (acc.1.max_hp * acc.2) }

/-- `calculate_initial_stats` (modules/traits.py lines 885-903). -/
def calculate_initial_stats (loadout : List TraitRec) : RunStats :=
  let stats := loadout.foldl process_trait_effects initial_run_stats
  { stats with mutation_rate := max 0 stats.mutation_rate,
               current_hp := min stats.current_hp stats.max_hp }

/-
## RunSimulator disaster application: `run_simulacra` (main.py lines 312-325)
-/

/-- `MAX_RECENT_DISASTERS` (src/simulacra/core/constants.py line 18). -/
def MAX_RECENT_DISASTERS : ℕ := 5

/-- Python `l[-n:]`. -/
def lastN {α : Type} (n : ℕ) (l : List α) : List α := l.drop (l.length - n)

/-- The disaster dict produced by `DisasterSystem.generate_disaster`
(modules/disasters.py lines 60-72): `{'name', 'type', 'effect',
'damage'}`. -/
structure RunDisaster where
  name : List Char
  type : List Char
  effect : List Char
  damage : ℚ
deriving DecidableEq

/-- The disaster branch of `run_simulacra`'s tick loop (main.py
lines 313-325): immune types skip damage entirely; otherwise resistance is
read from the stats dict and the damage, if positive, is applied to
`current_hp` (floored at 0) and the disaster is appended to the bounded
recent list.  `base_damage` stands for the result of the
`calculate_base_damage` call (a method absent from the imported
`DisasterSystem`; see the C8 theorem). -/
def run_disaster_step (stats : RunStats) (disaster : RunDisaster) (base_damage : ℚ)
    (recent : List RunDisaster) : RunStats × List RunDisaster :=
  if toLowerL disaster.type ∈ stats.immunities then (stats, recent)
  else
    let resistance := ((assocLookup (toLowerL disaster.type) stats.resistances).getD 0) / 100
    let actual_damage := base_damage * (1 - resistance)
    if 0 < actual_damage then
      ({ stats with current_hp := max 0 (stats.current_hp - actual_damage) },
       lastN MAX_RECENT_DISASTERS (recent ++ [disaster]))
    else (stats, recent)

/-
## Disaster damage with resistances:
`SimulacraGame._calculate_disaster_damage` (main.py lines 199-204)
-/

/-- `RESISTANCE_CAP` (src/simulacra/core/constants.py line 13). -/
def RESISTANCE_CAP : ℚ := 50

/-- `SimulacraGame._calculate_disaster_damage` (main.py lines 199-204).
The Python local `base_damage` is reassigned by the resistance reduction,
so the final `max(base_damage * 0.2, base_damage)` floors against the
already-reduced damage, not the incoming scaled damage. -/
def calculate_disaster_damage (resistances : List (List Char × ℚ)) (disaster_type : List Char)
    (base_damage : ℚ) : ℚ :=
  let damage :=
    match assocLookup disaster_type resistances with
    | some r => base_damage * (1 - (min RESISTANCE_CAP r) / 100)
    | none => base_damage
  max (damage * (2/10)) damage

/-
## DisasterSystem (src/simulacra/core/disasters.py)
-/

/-- `DisasterType` (core/disasters.py lines 7-12). -/
inductive CoreDisasterType
  | radiation
  | chemical
  | biological
  | physical
  | psychic
deriving DecidableEq

/-- The `.value` string of a `DisasterType` member. -/
def CoreDisasterType.value : CoreDisasterType → List Char
  | .radiation => str ("radiation")
  | .chemical => str ("chemical")
  | .biological => str ("biological")
  | .physical => str ("physical")
  | .psychic => str ("psychic")

/-- The `Disaster` dataclass (core/disasters.py lines 15-42). -/
structure Disaster where
  id : List Char
  name : List Char
  description : List Char
  type : CoreDisasterType
  damage : ℚ
  mutation_chance : ℚ
  duration : ℤ := 1
  cooldown : ℤ := 30
deriving DecidableEq

/-- `Disaster.get_scaled_damage` (core/disasters.py lines 36-42). -/
def get_scaled_damage (d : Disaster) (time : ℤ) (count : ℤ) : ℚ :=
  let early_game_bonus : ℚ := ((max 0 (30 - time) : ℤ) : ℚ) * (2/100)
  let time_scaling : ℚ := 1 + (time : ℚ) / 180
  let count_scaling : ℚ := 1 + (count : ℚ) * (15/100)
  d.damage * (1 + early_game_bonus) * time_scaling * count_scaling

/-- First catalog entry of `_initialize_disasters` (core/disasters.py
lines 54-62). -/
def radiation_burst : Disaster :=
  { id := str ("radiation_burst"), name := str ("Radiation Burst"),
    description := str ("Intense radiation damage and high mutation chance"),
    type := .radiation, damage := 20, mutation_chance := 25, cooldown := 35 }

/-- Second catalog entry (core/disasters.py lines 63-72). -/
def acid_rain : Disaster :=
  { id := str ("acid_rain"), name := str ("Acid Rain"),
    description := str ("Corrosive damage over time"),
    type := .chemical, damage := 8, mutation_chance := 15, duration := 3, cooldown := 25 }

/-- Third catalog entry (core/disasters.py lines 73-81). -/
def psychic_wave : Disaster :=
  { id := str ("psychic_wave"), name := str ("Psychic Wave"),
    description := str ("Mental damage and mutation acceleration"),
    type := .psychic, damage := 15, mutation_chance := 35, cooldown := 40 }

/-- Fourth catalog entry (core/disasters.py lines 82-90). -/
def toxic_cloud : Disaster :=
  { id := str ("toxic_cloud"), name := str ("Toxic Cloud"),
    description := str ("Poison damage and resistance weakening"),
    type := .chemical, damage := 12, mutation_chance := 15, cooldown := 40 }

/-- The fixed catalog installed by `_initialize_disasters` (core/disasters.py
lines 52-93); nothing else ever adds to `self.disasters`. -/
def initial_disasters : List Disaster :=
  [radiation_burst, acid_rain, psychic_wave, toxic_cloud]

/-- The `available_disasters` comprehension inside
`DisasterSystem.trigger_random_disaster` (core/disasters.py lines 96-99):
`current_time - self.last_occurrence.get(d.id, -999) >= d.cooldown`. -/
def available_disasters (disasters : List Disaster)
    (last_occurrence : List (List Char × ℤ)) (current_time : ℤ) : List Disaster :=
  disasters.filter (fun d =>
    d.cooldown ≤ current_time - ((assocLookup d.id last_occurrence).getD (-999)))

/-- `DisasterSystem.trigger_random_disaster` (core/disasters.py
lines 95-106).  The draw of `random.choice` is injected as an index `pick`
reduced modulo the number of eligible disasters; an empty eligible list
returns `None` (the source's early return) and leaves `last_occurrence`
unchanged, otherwise the chosen disaster's last occurrence is recorded. -/
def trigger_random_disaster (pick : ℕ) (disasters : List Disaster)
    (last_occurrence : List (List Char × ℤ)) (current_time : ℤ) :
    Option Disaster × List (List Char × ℤ) :=
  let avail := available_disasters disasters last_occurrence current_time
  match avail[pick % avail.length]? with
  | some d => (some d, assocSet d.id current_time last_occurrence)
  | none => (none, last_occurrence)

/-
## main.py module scope (for `run_simulacra`, main.py lines 265-342)
-/

/-- Every global name main.py brings into scope: its imports (lines 1-29)
and its own top-level definitions. -/
def main_module_scope : List (List Char) :=
  [str ("List"), str ("Dict"), str ("Optional"), str ("time"), str ("random"),
   str ("Fore"), str ("Style"), str ("TraitSystem"), str ("Player"),
   str ("PlayerConfig"), str ("MutationSystem"), str ("Mutation"),
   str ("MutationType"), str ("DisasterSystem"), str ("Disaster"),
   str ("BASE_HP"), str ("BASE_ENTROPY_DRAIN"), str ("MAX_ENTROPY_DRAIN"),
   str ("ENTROPY_ACCELERATION"), str ("BASE_REGEN_AMOUNT"),
   str ("RESISTANCE_CAP"), str ("MAX_MUTATION_RATE"),
   str ("MAX_RECENT_DISASTERS"), str ("RESISTANCE_GAIN"), str ("HUDManager"),
   str ("SoundManager"), str ("StartScreen"), str ("logger"),
   str ("normalize_trait"), str ("SimulacraGame"), str ("run_simulacra"),
   str ("select_trait_loadout")]

/-- The global names referenced by the body of `run_simulacra` (main.py
lines 265-342). -/
def run_simulacra_global_refs : List (List Char) :=
  [str ("logger"), str ("Fore"), str ("normalize_trait"),
   str ("calculate_initial_stats"), str ("BASE_ENTROPY_DRAIN"),
   str ("MutationSystem"), str ("DISASTER_INTERVAL"), str ("DisasterSystem"),
   str ("MAX_RECENT_DISASTERS"), str ("update_hud"), str ("time"),
   str ("show_collapse_summary")]

/-- The `if not loadout: ... return` guard of `run_simulacra` (main.py
lines 267-269): whether the run body is entered at all. -/
def run_simulacra_enters_loop (loadout : List TraitRec) : Bool := !loadout.isEmpty

/-
## MutationSystem (src/simulacra/core/mutations.py)
-/

/-- `MutationType` (core/mutations.py lines 7-13). -/
inductive CoreMutationType
  | physical
  | mental
  | special
  | adaptive
  | unstable
deriving DecidableEq

/-- The `Mutation` dataclass (core/mutations.py lines 16-24). -/
structure CoreMutation where
  id : List Char
  name : List Char
  description : List Char
  type : CoreMutationType
  power : ℚ := 1
  active : Bool := true
deriving DecidableEq

/-- `MutationSystem` state (core/mutations.py lines 30-32): the `mutations`
dict and the `active_mutations` set, both embedded as membership
functions keyed by id. -/
structure MutationSystemState where
  mutations : List Char → Option CoreMutation
  active_mutations : List Char → Bool

/-- Pointwise dict update `d[k] = v` / `del d[k]`. -/
def msUpdate (f : List Char → Option CoreMutation) (k : List Char)
    (v : Option CoreMutation) : List Char → Option CoreMutation :=
  fun k' => if k' = k then v else f k'

/-- Python `set.add`. -/
def setAdd (f : List Char → Bool) (k : List Char) : List Char → Bool :=
  fun k' => if k' = k then true else f k'

/-- Python `set.discard` / `set.remove` (state effect). -/
def setDel (f : List Char → Bool) (k : List Char) : List Char → Bool :=
  fun k' => if k' = k then false else f k'

/-- `MutationSystem.add_mutation` (core/mutations.py lines 69-73): stores the
mutation by id and adds the id to the active set only when the new
mutation is active (an existing active id is NOT discarded when the
replacement is inactive). -/
def add_mutation (s : MutationSystemState) (m : CoreMutation) : MutationSystemState :=
  { mutations := msUpdate s.mutations m.id (some m),
    active_mutations :=
      if m.active then setAdd s.active_mutations m.id else s.active_mutations }

/-- `MutationSystem.remove_mutation` (core/mutations.py lines 75-81); the
returned bool is not part of the state and is omitted. -/
def remove_mutation (s : MutationSystemState) (id : List Char) : MutationSystemState :=
  if (s.mutations id).isSome then
    { mutations := msUpdate s.mutations id none,
      active_mutations := setDel s.active_mutations id }
  else s

/-- `MutationSystem.activate_mutation` (core/mutations.py lines 91-97). -/
def activate_mutation (s : MutationSystemState) (id : List Char) : MutationSystemState :=
  match s.mutations id with
  | some m =>
    { mutations := msUpdate s.mutations id (some { m with active := true }),
      active_mutations := setAdd s.active_mutations id }
  | none => s

/-- `MutationSystem.deactivate_mutation` (core/mutations.py lines 99-105).
`none` models the `KeyError` raised when the id is in the active set but
absent from the dict (unreachable from states satisfying the
invariant). -/
def deactivate_mutation (s : MutationSystemState) (id : List Char) :
    Option MutationSystemState :=
  if s.active_mutations id then
    match s.mutations id with
    | some m =>
      some { mutations := msUpdate s.mutations id (some { m with active := false }),
             active_mutations := setDel s.active_mutations id }
    | none => none
  else some s

/-- One public `MutationSystem` call. -/
inductive MSOp
  | add (m : CoreMutation)
  | remove (id : List Char)
  | activate (id : List Char)
  | deactivate (id : List Char)

/-- Apply one call to a system state. -/
def ms_apply (s : MutationSystemState) : MSOp → Option MutationSystemState
  | .add m => some (add_mutation s m)
  | .remove id => some (remove_mutation s id)
  | .activate id => some (activate_mutation s id)
  | .deactivate id => deactivate_mutation s id

/-- The state of a system before `_initialize_mutations` runs
(core/mutations.py lines 31-32). -/
def ms_empty : MutationSystemState :=
  { mutations := fun _ => none, active_mutations := fun _ => false }

/-- Base mutation `regen` (core/mutations.py lines 37-43). -/
def regen_base : CoreMutation :=
  { id := str ("regen"), name := str ("Regeneration"),
    description := str ("Slowly heal over time"), type := .physical, power := 1 }

/-- Base mutation `thick_skin` (core/mutations.py lines 44-50). -/
def thick_skin_base : CoreMutation :=
  { id := str ("thick_skin"), name := str ("Thick Skin"),
    description := str ("Reduces entropy damage"), type := .physical, power := 8/10 }

/-- Base mutation `adaptive` (core/mutations.py lines 51-57). -/
def adaptive_base : CoreMutation :=
  { id := str ("adaptive"), name := str ("Adaptive Tissue"),
    description := str ("Gain resistance to recent damage types"),
    type := .adaptive, power := 12/10 }

/-- Base mutation `unstable` (core/mutations.py lines 58-64). -/
def unstable_base : CoreMutation :=
  { id := str ("unstable"), name := str ("Unstable DNA"),
    description := str ("Higher mutation chance but increased entropy"),
    type := .unstable, power := 3/2 }

/-- `_initialize_mutations` (core/mutations.py lines 35-67): the state of a
freshly constructed `MutationSystem`. -/
def ms_initial : MutationSystemState :=
  [regen_base, thick_skin_base, adaptive_base, unstable_base].foldl add_mutation ms_empty

/-- The claimed invariant: an id is in `active_mutations` iff it is a key of
`mutations` whose stored mutation has `active = True`. -/
def MSInv (s : MutationSystemState) : Prop :=
  ∀ id, s.active_mutations id = true ↔
    ∃ m, s.mutations id = some m ∧ m.active = true

/-- Side condition under which the invariant survives a call: an
`add_mutation` must either add an active mutation or target an id that is
not currently in the active set. -/
def MSGoodOp (s : MutationSystemState) : MSOp → Prop
  | .add m => m.active = true ∨ s.active_mutations m.id = false
  | _ => True

/-
## Player (src/simulacra/core/player.py)
-/

/-- `PlayerConfig` (core/player.py lines 8-23). -/
structure PlayerConfig where
  base_health : ℚ := 100
  base_speed : ℚ := 1
  max_health : ℚ := 100
  trait_slots : ℤ := 3
  max_resistances : List (List Char × ℚ) :=
    [(str ("radiation"), 75), (str ("chemical"), 75), (str ("biological"), 75),
     (str ("physical"), 75), (str ("psychic"), 75)]
  mutation_rate : ℚ := 0
  immunities : List (List Char) := []
deriving DecidableEq

/-- The default configuration `PlayerConfig()` used by `SimulacraGame`
(main.py lines 61-65). -/
def default_player_config : PlayerConfig := {}

/-- `Player.modify_health` (core/player.py lines 54-56):
`self.health = max(0, min(self.config.max_health, self.health + amount))`. -/
def modify_health (config : PlayerConfig) (health amount : ℚ) : ℚ :=
  max 0 (min config.max_health (health + amount))

/-- `BASE_REGEN_AMOUNT` (src/simulacra/core/constants.py line 11); the regen
tick of `SimulacraGame._handle_mutations` (main.py lines 171-180) heals
through `modify_health` with `mutation.power * BASE_REGEN_AMOUNT`. -/
def BASE_REGEN_AMOUNT : ℚ := 3/2

/-
## Concrete inputs used by the evaluation theorems
-/

/-- A loadout trait carrying one `"+10% HP"` effect. -/
def plus_ten_trait : TraitRec := { name := str ("Vital"), effects := [str ("+10% HP")] }

/-- A loadout trait carrying one `"30% chance to resist fire"` effect. -/
def chance_trait : TraitRec :=
  { name := str ("Flame Ward"), effects := [str ("30% chance to resist fire")] }

/-- A loadout trait carrying one `"10% reduced fire damage"` effect. -/
def reduced_trait : TraitRec :=
  { name := str ("Ashen Hide"), effects := [str ("10% reduced fire damage")] }

/-- Run stats whose immunity set contains `"fire"`. -/
def immune_stats : RunStats := { initial_run_stats with immunities := [str ("fire")] }

/-- A generated disaster of type `"Fire"`. -/
def fire_disaster : RunDisaster :=
  { name := str ("Flare"), type := str ("Fire"), effect := str ("burns"), damage := 15 }

/-- A disaster with the cooldown 30 of the spec's eligibility scenario. -/
def disaster_a : Disaster :=
  { id := str ("A"), name := str ("A"), description := str ("A"),
    type := .physical, damage := 10, mutation_chance := 10, cooldown := 30 }

/-- A last-occurrence map recording `disaster_a` at time 100. -/
def last_occ_a : List (List Char × ℤ) := [(str ("A"), 100)]

/-- The `regen` mutation re-added with `active=False`, as
`add_mutation(Mutation(id="regen", ..., active=False))` would build it. -/
def regen_inactive : CoreMutation :=
  { id := str ("regen"), name := str ("Regeneration"),
    description := str ("Slowly heal over time"), type := .physical, power := 1,
    active := false }

/-- The system state after `activate_mutation("regen")` on a fresh system. -/
def ms_witness_state : MutationSystemState :=
  (ms_apply ms_initial (.activate (str ("regen")))).getD ms_empty

/-
## Theorems
-/

/-- `round2` is the identity on integral values. -/
theorem round2_int (n : ℤ) : round2 ((n : ℚ)) = (n : ℚ) := by
  have h : ((n : ℚ) * 100) = ((n * 100 : ℤ) : ℚ) := by push_cast; ring
  rw [round2, pyRoundEven, h, Int.floor_intCast]
  norm_num

/-- Claim C1: for every resistance map and type, and every nonnegative scaled
damage, the damage returned by `_calculate_disaster_damage` is at least 20%
of the scaled damage (the cap of 50 bounds the reduction by half; the
explicit `max` floor of the source is a no-op on the already-reduced
value). -/
theorem disaster_damage_floor (resistances : List (List Char × ℚ))
    (disaster_type : List Char) (scaled_damage : ℚ) (h : 0 ≤ scaled_damage) :
    (2/10) * scaled_damage ≤
      calculate_disaster_damage resistances disaster_type scaled_damage := by
  rw [calculate_disaster_damage]
  cases hl : assocLookup disaster_type resistances with
  | none =>
    simp only [hl]
    have hmax := le_max_right (scaled_damage * (2/10)) scaled_damage
    linarith
  | some r =>
    simp only [hl]
    have hm : min RESISTANCE_CAP r ≤ 50 :=
      le_trans (min_le_left _ _) (by norm_num [RESISTANCE_CAP])
    have hd : scaled_damage * (1/2) ≤ scaled_damage * (1 - min RESISTANCE_CAP r / 100) := by
      apply mul_le_mul_of_nonneg_left _ h
      linarith
    have hmax := le_max_right (scaled_damage * (1 - min RESISTANCE_CAP r / 100) * (2/10))
      (scaled_damage * (1 - min RESISTANCE_CAP r / 100))
    linarith

/-- Witness for C1: damage 10 against a capped 50% radiation resistance. -/
theorem disaster_damage_floor_witness :
    0 ≤ (10 : ℚ) ∧
      (2/10) * 10 ≤
        calculate_disaster_damage [(str ("radiation"), 50)] (str ("radiation")) 10 :=
  ⟨by norm_num,
   disaster_damage_floor [(str ("radiation"), 50)] (str ("radiation")) 10 (by norm_num)⟩

/-- Claim C4: the disaster branch of `run_simulacra` applies zero damage when
the disaster's lower-cased type is in the immunity set: the stats (and the
recent-disaster history) are returned unchanged. -/
theorem run_disaster_immune_no_damage (stats : RunStats) (disaster : RunDisaster)
    (base_damage : ℚ) (recent : List RunDisaster)
    (h : toLowerL disaster.type ∈ stats.immunities) :
    run_disaster_step stats disaster base_damage recent = (stats, recent) := by
  rw [run_disaster_step, if_pos h]

/-- Witness for C4: a `"Fire"` disaster against stats immune to `"fire"`. -/
theorem run_disaster_immune_no_damage_witness :
    (toLowerL fire_disaster.type ∈ immune_stats.immunities) ∧
      run_disaster_step immune_stats fire_disaster 15 [] = (immune_stats, []) :=
  ⟨by decide, run_disaster_immune_no_damage immune_stats fire_disaster 15 [] (by decide)⟩

/-- Claim C7: `get_scaled_damage` computes
`baseDamage * (1 + max(0, 30-t) * 0.02) * (1 + t/180) * (1 + n * 0.15)`,
and at `baseDamage = 20`, `t = 60`, `n = 0` the scaled damage is `26.67`
to two decimal places. -/
theorem scaled_damage_formula :
    (∀ (d : Disaster) (time count : ℤ), 0 ≤ time → 0 ≤ count →
      get_scaled_damage d time count =
        d.damage * (1 + ((max 0 (30 - time) : ℤ) : ℚ) * (2/100)) *
          (1 + (time : ℚ) / 180) * (1 + (count : ℚ) * (15/100))) ∧
    round2 (get_scaled_damage radiation_burst 60 0) = 2667/100 := by
  constructor
  · intro d time count _ _
    rfl
  · have h1 : get_scaled_damage radiation_burst 60 0 = 80/3 := by
      rw [get_scaled_damage]
      rw [show (max 0 (30 - (60 : ℤ)) : ℤ) = 0 from by decide]
      norm_num [radiation_burst]
    have hf : (⌊(80 : ℚ)/3 * 100⌋ : ℤ) = 2666 := by
      rw [Int.floor_eq_iff]
      constructor
      · norm_num
      · norm_num
    rw [h1, round2, pyRoundEven, hf]
    norm_num

/-- Witness for C7: the formula instantiated at `radiation_burst`, time 60,
count 0. -/
theorem scaled_damage_formula_witness :
    (0 ≤ (60 : ℤ) ∧ 0 ≤ (0 : ℤ)) ∧
      get_scaled_damage radiation_burst 60 0 =
        radiation_burst.damage * (1 + ((max 0 (30 - (60 : ℤ)) : ℤ) : ℚ) * (2/100)) *
          (1 + ((60 : ℤ) : ℚ) / 180) * (1 + ((0 : ℤ) : ℚ) * (15/100)) :=
  ⟨⟨by decide, by decide⟩,
   by exact scaled_damage_formula.1 radiation_burst 60 0 (by decide) (by decide)⟩

/-- Claim C8 (code bug): `run_simulacra` references the globals
`calculate_initial_stats` (before the tick loop) and `DISASTER_INTERVAL`
(inside it), neither of which main.py imports or defines, so a non-empty
loadout raises `NameError` instead of running to game over; and the
empty-loadout guard merely logs and returns before any tick. -/
theorem run_simulacra_undefined_names_bug :
    (str ("calculate_initial_stats") ∈ run_simulacra_global_refs ∧
      str ("calculate_initial_stats") ∉ main_module_scope) ∧
    (str ("DISASTER_INTERVAL") ∈ run_simulacra_global_refs ∧
      str ("DISASTER_INTERVAL") ∉ main_module_scope) ∧
    run_simulacra_enters_loop [] = false := by
  refine ⟨⟨by decide, by decide⟩, ⟨by decide, by decide⟩, rfl⟩

/-- Counterexample for C3: `parse_effect` is not total — on the input
`"% HP"` the text before the first `%` is empty, `float("")` raises
`ValueError`, and no effect is returned. -/
theorem parse_effect_raises_cex : parse_effect (str ("% HP")) = none := by decide

/-- Claim C3 as amended: `parse_effect` returns the `unknown`/0 effect on any
text matching no recognized marker, and it can only fail on text that does
contain the `"% HP"` or `"Mutation Rate"` marker (with a malformed numeric
prefix). -/
theorem parse_effect_unmatched_unknown :
    (∀ t : List Char, containsL t (str ("% HP")) = false →
      containsL t (str ("Mutation Rate")) = false →
      parse_effect t = some { type := str ("unknown"), value := 0, text := t }) ∧
    (∀ t : List Char, parse_effect t = none →
      containsL t (str ("% HP")) = true ∨ containsL t (str ("Mutation Rate")) = true) := by
  have base : ∀ t : List Char, containsL t (str ("% HP")) = false →
      containsL t (str ("Mutation Rate")) = false →
      parse_effect t = some { type := str ("unknown"), value := 0, text := t } := by
    intro t h1 h2
    rw [parse_effect, if_neg (by simp [h1]), if_neg (by simp [h2])]
  refine ⟨base, ?_⟩
  intro t h
  by_cases h1 : containsL t (str ("% HP")) = true
  · exact Or.inl h1
  · by_cases h2 : containsL t (str ("Mutation Rate")) = true
    · exact Or.inr h2
    · rw [base t (by simpa using h1) (by simpa using h2)] at h
      exact absurd h (by simp)

/-- Witness for C3: `"Immune to fire"` matches neither marker and parses to
the `unknown` effect. -/
theorem parse_effect_unmatched_unknown_witness :
    (containsL (str ("Immune to fire")) (str ("% HP")) = false ∧
      containsL (str ("Immune to fire")) (str ("Mutation Rate")) = false) ∧
    parse_effect (str ("Immune to fire")) =
      some { type := str ("unknown"), value := 0, text := str ("Immune to fire") } :=
  ⟨⟨by decide, by decide⟩,
   parse_effect_unmatched_unknown.1 (str ("Immune to fire")) (by decide) (by decide)⟩

/-- One `apply_trait_effects` effect step only moves the HP magnitude into
the running multiplier: the HP-relevant stats fields pass through
untouched. -/
theorem ate_step_fields (st : BaseStats) (m : ℚ) (t : List Char) (st' : BaseStats) (m' : ℚ)
    (hstep : ate_step (st, m) t = some (st', m')) :
    ∃ h, hp_text_total? t = some h ∧ m' = m + h ∧ st'.base_hp = st.base_hp ∧
      st'.max_hp = st.max_hp ∧ st'.current_hp = st.current_hp := by
  simp only [ate_step] at hstep
  by_cases c1 : containsL t (str ("% HP")) = true
  · rw [if_pos c1] at hstep
    cases hp : parse_hp_modifier? t with
    | none => rw [hp] at hstep; exact absurd hstep (by simp)
    | some v =>
      rw [hp] at hstep
      simp only [Option.map_some', Option.some.injEq, Prod.mk.injEq] at hstep
      obtain ⟨hs, hm⟩ := hstep
      refine ⟨v, ?_, hm.symm, ?_, ?_, ?_⟩
      · rw [hp_text_total?, if_pos c1, hp]
      · rw [← hs]
      · rw [← hs]
      · rw [← hs]
  · rw [if_neg c1] at hstep
    have ht : hp_text_total? t = some 0 := by
      rw [hp_text_total?, if_neg c1]
    by_cases c2 : containsL t (str ("Mutation Rate")) = true
    · rw [if_pos c2] at hstep
      cases hp : parse_mutation_rate? t with
      | none => rw [hp] at hstep; exact absurd hstep (by simp)
      | some v =>
        rw [hp] at hstep
        simp only [Option.map_some', Option.some.injEq, Prod.mk.injEq] at hstep
        obtain ⟨hs, hm⟩ := hstep
        refine ⟨0, ht, by rw [← hm, add_zero], ?_, ?_, ?_⟩
        · rw [← hs]
        · rw [← hs]
        · rw [← hs]
    · rw [if_neg c2] at hstep
      by_cases c3 : containsL t (str ("Immune to")) = true
      · rw [if_pos c3] at hstep
        cases hp : parse_immunity? t with
        | none => rw [hp] at hstep; exact absurd hstep (by simp)
        | some imm =>
          rw [hp] at hstep
          simp only [Option.map_some', Option.some.injEq, Prod.mk.injEq] at hstep
          obtain ⟨hs, hm⟩ := hstep
          refine ⟨0, ht, by rw [← hm, add_zero], ?_, ?_, ?_⟩
          · rw [← hs]; split <;> rfl
          · rw [← hs]; split <;> rfl
          · rw [← hs]; split <;> rfl
      · rw [if_neg c3] at hstep
        simp only [Option.some.injEq, Prod.mk.injEq] at hstep
        obtain ⟨hs, hm⟩ := hstep
        refine ⟨0, ht, by rw [← hm, add_zero], ?_, ?_, ?_⟩
        · rw [← hs]
        · rw [← hs]
        · rw [← hs]

/-- The inner effect loop of `apply_trait_effects` accumulates exactly the
summed HP-percent total and leaves the HP fields untouched. -/
theorem ate_texts_fields (ts : List (List Char)) :
    ∀ (st : BaseStats) (m : ℚ) (st' : BaseStats) (m' : ℚ),
    ate_texts ts (st, m) = some (st', m') →
    ∃ h, hp_total_texts? ts = some h ∧ m' = m + h ∧ st'.base_hp = st.base_hp ∧
      st'.max_hp = st.max_hp ∧ st'.current_hp = st.current_hp := by
  induction ts with
  | nil =>
    intro st m st' m' hfold
    simp only [ate_texts, Option.some.injEq, Prod.mk.injEq] at hfold
    obtain ⟨hs, hm⟩ := hfold
    exact ⟨0, rfl, by rw [← hm, add_zero], by rw [← hs], by rw [← hs], by rw [← hs]⟩
  | cons t ts ih =>
    intro st m st' m' hfold
    simp only [ate_texts] at hfold
    obtain ⟨⟨stMid, mMid⟩, hstep, hrest⟩ := Option.bind_eq_some.mp hfold
    obtain ⟨v, hv, hmv, hb1, hm1, hc1⟩ := ate_step_fields st m t stMid mMid hstep
    obtain ⟨w, hw, hmw, hb2, hm2, hc2⟩ := ih stMid mMid st' m' hrest
    refine ⟨v + w, ?_, ?_, ?_, ?_, ?_⟩
    · rw [hp_total_texts?, hv, hw]
      rfl
    · rw [hmw, hmv]; ring
    · rw [hb2, hb1]
    · rw [hm2, hm1]
    · rw [hc2, hc1]

/-- The outer trait loop of `apply_trait_effects` accumulates the loadout's
summed HP-percent total and leaves the HP fields untouched. -/
theorem ate_traits_fields (traits : List TraitRec) :
    ∀ (st : BaseStats) (m : ℚ) (st' : BaseStats) (m' : ℚ),
    ate_traits traits (st, m) = some (st', m') →
    ∃ h, hp_total_traits? traits = some h ∧ m' = m + h ∧ st'.base_hp = st.base_hp ∧
      st'.max_hp = st.max_hp ∧ st'.current_hp = st.current_hp := by
  induction traits with
  | nil =>
    intro st m st' m' hfold
    simp only [ate_traits, Option.some.injEq, Prod.mk.injEq] at hfold
    obtain ⟨hs, hm⟩ := hfold
    exact ⟨0, rfl, by rw [← hm, add_zero], by rw [← hs], by rw [← hs], by rw [← hs]⟩
  | cons tr trs ih =>
    intro st m st' m' hfold
    simp only [ate_traits] at hfold
    obtain ⟨⟨stMid, mMid⟩, hstep, hrest⟩ := Option.bind_eq_some.mp hfold
    obtain ⟨v, hv, hmv, hb1, hm1, hc1⟩ := ate_texts_fields tr.effects st m stMid mMid hstep
    obtain ⟨w, hw, hmw, hb2, hm2, hc2⟩ := ih stMid mMid st' m' hrest
    refine ⟨v + w, ?_, ?_, ?_, ?_, ?_⟩
    · rw [hp_total_traits?, hv, hw]
      rfl
    · rw [hmw, hmv]; ring
    · rw [hb2, hb1]
    · rw [hm2, hm1]
    · rw [hc2, hc1]

/-- Claim C2 as amended: the additive resolution path `apply_trait_effects`
sums every HP-percent magnitude of the loadout into one total applied
once: whenever it returns stats, `maxHp = 100 * (1 + total/100)` and
`currentHp = maxHp`; the empty loadout yields the base stats with
`maxHp = currentHp = 100`. -/
theorem apply_trait_effects_additive :
    (∀ (traits : List TraitRec) (s : BaseStats) (tot : ℚ),
      apply_trait_effects traits = some s → hp_total_traits? traits = some tot →
      s.max_hp = 100 * (1 + tot / 100) ∧ s.current_hp = s.max_hp) ∧
    (apply_trait_effects [] = some create_base_stats ∧
      create_base_stats.max_hp = 100 ∧
      create_base_stats.current_hp = create_base_stats.max_hp) := by
  have happ0 : apply_hp_modifier create_base_stats 0 = create_base_stats := by
    rw [apply_hp_modifier, if_neg]
    simp
  constructor
  · intro traits s tot happ htot
    rw [apply_trait_effects] at happ
    obtain ⟨⟨st', m'⟩, hfold, happly⟩ := Option.map_eq_some'.mp happ
    obtain ⟨h, hh, hm, hbase, hmax, hcur⟩ :=
      ate_traits_fields traits create_base_stats 0 st' m' hfold
    have htoteq : h = tot := by
      rw [hh] at htot
      exact Option.some.inj htot
    rw [apply_hp_modifier] at happly
    by_cases hz : m' ≠ 0
    · rw [if_pos hz] at happly
      rw [← happly]
      constructor
      · simp only
        rw [hbase, hm, htoteq]
        norm_num [create_base_stats]
      · rfl
    · rw [if_neg hz] at happly
      push_neg at hz
      have htot0 : tot = 0 := by
        rw [← htoteq, ← zero_add h, ← hm, hz]
      rw [← happly, htot0]
      constructor
      · rw [hmax]
        norm_num [create_base_stats]
      · rw [hmax, hcur]
        norm_num [create_base_stats]
  · refine ⟨?_, rfl, rfl⟩
    rw [apply_trait_effects]
    simp only [ate_traits, Option.map_some']
    rw [happ0]

/-- Witness for C2: the empty loadout resolves to the base stats with the
zero HP total. -/
theorem apply_trait_effects_additive_witness :
    (apply_trait_effects [] = some create_base_stats ∧
      hp_total_traits? [] = some 0) ∧
    (create_base_stats.max_hp = 100 * (1 + 0 / 100) ∧
      create_base_stats.current_hp = create_base_stats.max_hp) :=
  ⟨⟨apply_trait_effects_additive.2.1, rfl⟩,
   apply_trait_effects_additive.1 [] create_base_stats 0
     apply_trait_effects_additive.2.1 rfl⟩

/-- Counterexample for C2: the resolution path actually invoked by
`run_simulacra` (`calculate_initial_stats`, using the later
`process_trait_effects`) stacks HP percentages multiplicatively per trait:
two `"+10% HP"` traits produce `maxHp = 121`, not the
`100 * (1 + 20/100) = 120` of the summed-once rule. -/
theorem hp_stacking_multiplicative_cex :
    (calculate_initial_stats [plus_ten_trait, plus_ten_trait]).max_hp = 121 ∧
    (121 : ℚ) ≠ 100 * (1 + (10 + 10) / 100) := by
  constructor
  · have htl : toLowerL (str ("+10% HP")) = str ("+10% hp") := by decide
    have h1 : containsL (str ("+10% hp")) (str ("hp")) = true := by decide
    have h2 : searchHp (str ("+10% hp")) = some 10 := by decide
    have h3 : containsL (str ("+10% hp")) (str ("entropy")) = false := by decide
    have h4 : containsL (str ("+10% hp")) (str ("chance to resist fire")) = false := by
      decide
    have h5 : containsL (str ("+10% hp")) (str ("reduced")) = false := by decide
    simp [calculate_initial_stats, process_trait_effects, pte_effect, initial_run_stats,
      plus_ten_trait, htl, h1, h2, h3, h4, h5]
    have f1 : (100 : ℚ) * (1 + 10 / 100) = ((110 : ℤ) : ℚ) := by norm_num
    rw [f1, round2_int]
    have f2 : ((110 : ℤ) : ℚ) * (1 + 10 / 100) = ((121 : ℤ) : ℚ) := by
      push_cast
      norm_num
    rw [f2, round2_int]
    norm_num
  · norm_num

/-- Claim C5 (code bug): stat resolution is order-dependent.  The
`chance to resist fire` branch of the later `process_trait_effects` reads
the never-written `fire_resistance` key instead of
`resistances['fire']`, so it overwrites instead of accumulating:
swapping a `"30% chance to resist fire"` trait and a
`"10% reduced fire damage"` trait changes the final fire resistance
(30 vs 40). -/
theorem fire_resist_order_dependent_bug :
    assocLookup (str ("fire"))
        ((calculate_initial_stats [reduced_trait, chance_trait]).resistances) = some 30 ∧
    assocLookup (str ("fire"))
        ((calculate_initial_stats [chance_trait, reduced_trait]).resistances) = some 40 ∧
    calculate_initial_stats [reduced_trait, chance_trait] ≠
      calculate_initial_stats [chance_trait, reduced_trait] := by
  have tc : toLowerL (str ("30% chance to resist fire")) =
      str ("30% chance to resist fire") := by decide
  have tr : toLowerL (str ("10% reduced fire damage")) =
      str ("10% reduced fire damage") := by decide
  have c1 : containsL (str ("30% chance to resist fire")) (str ("hp")) = false := by decide
  have c2 : containsL (str ("30% chance to resist fire")) (str ("entropy")) = false := by
    decide
  have c3 : containsL (str ("30% chance to resist fire"))
      (str ("chance to resist fire")) = true := by decide
  have c4 : searchChance (str ("30% chance to resist fire")) = some 30 := by decide
  have c5 : containsL (str ("30% chance to resist fire")) (str ("reduced")) = false := by
    decide
  have r1 : containsL (str ("10% reduced fire damage")) (str ("hp")) = false := by decide
  have r2 : containsL (str ("10% reduced fire damage")) (str ("entropy")) = false := by
    decide
  have r3 : containsL (str ("10% reduced fire damage"))
      (str ("chance to resist fire")) = false := by decide
  have r4 : containsL (str ("10% reduced fire damage")) (str ("reduced")) = true := by decide
  have r5 : containsL (str ("10% reduced fire damage")) (str ("damage")) = true := by decide
  have r6 : searchReduced (str ("10% reduced fire damage")) =
      some (10, str ("fire")) := by decide
  have n30 : natOfDigits ['3', '0'] = 30 := by decide
  have n10 : natOfDigits ['1', '0'] = 10 := by decide
  have tk4 : List.take 4 (List.dropWhile isPySpace (List.drop 7 (List.dropWhile isPySpace
      [' ', 'r', 'e', 'd', 'u', 'c', 'e', 'd', ' ', 'f', 'i', 'r', 'e', ' ', 'd', 'a',
       'm', 'a', 'g', 'e']))) = str ("fire") := by decide
  have hA : assocLookup (str ("fire"))
      ((calculate_initial_stats [reduced_trait, chance_trait]).resistances) = some 30 := by
    simp [calculate_initial_stats, process_trait_effects, pte_effect, initial_run_stats,
      reduced_trait, chance_trait, tc, tr, c1, c2, c3, c4, c5, r1, r2, r3, r4, r5, r6,
      assocSet, assocLookup, n30, n10, tk4]
    norm_num [min_def]
  have hB : assocLookup (str ("fire"))
      ((calculate_initial_stats [chance_trait, reduced_trait]).resistances) = some 40 := by
    simp [calculate_initial_stats, process_trait_effects, pte_effect, initial_run_stats,
      reduced_trait, chance_trait, tc, tr, c1, c2, c3, c4, c5, r1, r2, r3, r4, r5, r6,
      assocSet, assocLookup, n30, n10, tk4]
    norm_num [min_def]
  refine ⟨hA, hB, ?_⟩
  intro heq
  rw [heq] at hA
  exact absurd (Option.some.inj (hA.symm.trans hB)) (by norm_num)

/-- Claim C6: `trigger_random_disaster` selects a disaster only when
`currentTime - lastOccurrence.get(id, -999) >= cooldown`; every
never-seen catalog disaster is eligible at any time `t ≥ 0`; with
`lastOccurrence = {A: t0}` and cooldown 30, the trigger can never select
`A` at `t0+29`, can select it at `t0+30`, and returns none when nothing
is eligible. -/
theorem trigger_cooldown_eligibility :
    (∀ (pick : ℕ) (ds : List Disaster) (lo : List (List Char × ℤ)) (t : ℤ) (d : Disaster),
      (trigger_random_disaster pick ds lo t).1 = some d →
      d ∈ ds ∧ d.cooldown ≤ t - ((assocLookup d.id lo).getD (-999))) ∧
    (∀ d ∈ initial_disasters, ∀ (lo : List (List Char × ℤ)) (t : ℤ), 0 ≤ t →
      assocLookup d.id lo = none →
      d ∈ available_disasters initial_disasters lo t) ∧
    (∀ (pick : ℕ) (ds : List Disaster) (lo : List (List Char × ℤ)) (d : Disaster) (t0 : ℤ),
      d.cooldown = 30 → assocLookup d.id lo = some t0 →
      (trigger_random_disaster pick ds lo (t0 + 29)).1 ≠ some d) ∧
    (∀ (ds : List Disaster) (lo : List (List Char × ℤ)) (d : Disaster) (t0 : ℤ),
      d ∈ ds → d.cooldown = 30 → assocLookup d.id lo = some t0 →
      ∃ pick, (trigger_random_disaster pick ds lo (t0 + 30)).1 = some d) ∧
    (∀ (pick : ℕ) (ds : List Disaster) (lo : List (List Char × ℤ)) (t : ℤ),
      available_disasters ds lo t = [] →
      (trigger_random_disaster pick ds lo t).1 = none) := by
  have sound : ∀ (pick : ℕ) (ds : List Disaster) (lo : List (List Char × ℤ)) (t : ℤ)
      (d : Disaster), (trigger_random_disaster pick ds lo t).1 = some d →
      d ∈ ds ∧ d.cooldown ≤ t - ((assocLookup d.id lo).getD (-999)) := by
    intro pick ds lo t d h
    simp only [trigger_random_disaster] at h
    cases hg : (available_disasters ds lo t)[pick % (available_disasters ds lo t).length]? with
    | none => rw [hg] at h; exact absurd h (by simp)
    | some d' =>
      rw [hg] at h
      simp only at h
      have hd : d' = d := Option.some.inj h
      subst hd
      obtain ⟨hlt, hEq⟩ := List.getElem?_eq_some.mp hg
      have hmem : d' ∈ available_disasters ds lo t := hEq ▸ List.getElem_mem hlt
      obtain ⟨hds, hp⟩ := List.mem_filter.mp hmem
      refine ⟨hds, ?_⟩
      exact of_decide_eq_true hp
  refine ⟨sound, ?_, ?_, ?_, ?_⟩
  · intro d hd lo t ht hnone
    apply List.mem_filter.mpr
    refine ⟨hd, ?_⟩
    rw [hnone]
    simp only [Option.getD_none, decide_eq_true_eq]
    have hc : d.cooldown ≤ 40 := by
      simp only [initial_disasters, List.mem_cons, List.not_mem_nil, or_false] at hd
      rcases hd with rfl | rfl | rfl | rfl <;> decide
    omega
  · intro pick ds lo d t0 hc hlo hcontra
    obtain ⟨_, hle⟩ := sound pick ds lo (t0 + 29) d hcontra
    rw [hlo, hc] at hle
    simp only [Option.getD_some] at hle
    omega
  · intro ds lo d t0 hd hc hlo
    have hmem : d ∈ available_disasters ds lo (t0 + 30) := by
      apply List.mem_filter.mpr
      refine ⟨hd, ?_⟩
      rw [hlo, hc]
      simp only [Option.getD_some, decide_eq_true_eq]
      omega
    refine ⟨(available_disasters ds lo (t0 + 30)).indexOf d, ?_⟩
    simp only [trigger_random_disaster]
    have hlt : (available_disasters ds lo (t0 + 30)).indexOf d <
        (available_disasters ds lo (t0 + 30)).length :=
      List.indexOf_lt_length.mpr hmem
    rw [Nat.mod_eq_of_lt hlt, List.getElem?_eq_getElem hlt, List.getElem_indexOf hlt]
  · intro pick ds lo t h
    simp only [trigger_random_disaster, h]
    rfl

/-- Witness for C6: `disaster_a` (cooldown 30) last fired at time 100; the
trigger cannot select it at time 129. -/
theorem trigger_cooldown_eligibility_witness :
    (disaster_a.cooldown = 30 ∧ assocLookup disaster_a.id last_occ_a = some 100) ∧
    (trigger_random_disaster 0 [disaster_a] last_occ_a 129).1 ≠ some disaster_a :=
  ⟨⟨by decide, by decide⟩,
   trigger_cooldown_eligibility.2.2.1 0 [disaster_a] last_occ_a disaster_a 100
     (by decide) (by decide)⟩

/-- Counterexample for C9: re-adding an existing, currently-active id with an
inactive mutation leaves the id in `active_mutations` while the stored
mutation's `active` flag is false — `add_mutation` does not re-establish
the invariant. -/
theorem mutation_invariant_cex : ¬ MSInv (add_mutation ms_initial regen_inactive) := by
  intro h
  obtain ⟨m, hm, hact⟩ := (h (str ("regen"))).mp (by decide)
  have hm' : some regen_inactive = some m := hm
  rw [← Option.some.inj hm'] at hact
  exact absurd hact (by decide)

/-- The invariant is preserved by every `MutationSystem` call that does not
replace a currently-active id with an inactive mutation. -/
theorem ms_preserve (s : MutationSystemState) (op : MSOp) (s' : MutationSystemState)
    (hinv : MSInv s) (hgood : MSGoodOp s op) (happ : ms_apply s op = some s') : MSInv s' := by
  cases op with
  | add m =>
    have hs : s' = add_mutation s m := (Option.some.inj happ).symm
    subst hs
    intro id
    by_cases hid : id = m.id
    · subst hid
      cases hma : m.active with
      | true =>
        constructor
        · intro _
          exact ⟨m, by simp [add_mutation, msUpdate], hma⟩
        · intro _
          simp [add_mutation, hma, setAdd]
      | false =>
        have hact : s.active_mutations m.id = false := by
          rcases hgood with hg | hg
          · rw [hma] at hg; exact absurd hg (by simp)
          · exact hg
        constructor
        · intro hmem
          rw [show (add_mutation s m).active_mutations m.id = false by
            simp [add_mutation, hma, hact]] at hmem
          exact absurd hmem (by simp)
        · intro ⟨m', hm', hact'⟩
          rw [show (add_mutation s m).mutations m.id = some m by
            simp [add_mutation, msUpdate]] at hm'
          rw [← Option.some.inj hm', hma] at hact'
          exact absurd hact' (by simp)
    · have h1 : (add_mutation s m).active_mutations id = s.active_mutations id := by
        simp only [add_mutation]
        cases m.active <;> simp [setAdd, hid]
      have h2 : (add_mutation s m).mutations id = s.mutations id := by
        simp [add_mutation, msUpdate, hid]
      rw [h1, h2]
      exact hinv id
  | remove rid =>
    have hs : s' = remove_mutation s rid := (Option.some.inj happ).symm
    subst hs
    rw [remove_mutation]
    by_cases hsome : (s.mutations rid).isSome = true
    · rw [if_pos hsome]
      intro id
      by_cases hid : id = rid
      · subst hid
        simp [setDel, msUpdate]
      · simp only [setDel, msUpdate, if_neg hid]
        exact hinv id
    · rw [if_neg hsome]
      exact hinv
  | activate aid =>
    have hs : s' = activate_mutation s aid := (Option.some.inj happ).symm
    subst hs
    rw [activate_mutation]
    cases hma : s.mutations aid with
    | none => exact hinv
    | some m =>
      intro id
      by_cases hid : id = aid
      · subst hid
        simp only [setAdd, msUpdate, if_pos rfl]
        constructor
        · intro _
          exact ⟨{ m with active := true }, rfl, rfl⟩
        · intro _
          rfl
      · simp only [setAdd, msUpdate, if_neg hid]
        exact hinv id
  | deactivate did =>
    simp only [ms_apply, deactivate_mutation] at happ
    by_cases hact : s.active_mutations did = true
    · rw [if_pos hact] at happ
      cases hma : s.mutations did with
      | none => rw [hma] at happ; exact absurd happ (by simp)
      | some m =>
        rw [hma] at happ
        have hs : s' = _ := (Option.some.inj happ).symm
        subst hs
        intro id
        by_cases hid : id = did
        · subst hid
          simp only [setDel, msUpdate, if_pos rfl]
          constructor
          · intro hfalse
            exact absurd hfalse (by simp)
          · intro ⟨m', hm', hact'⟩
            rw [← Option.some.inj hm'] at hact'
            exact absurd hact' (by simp)
        · simp only [setDel, msUpdate, if_neg hid]
          exact hinv id
    · rw [if_neg hact] at happ
      have hs : s' = s := (Option.some.inj happ).symm
      subst hs
      exact hinv

/-- Claim C9 as amended: the iff invariant holds for a freshly initialized
`MutationSystem` and is preserved by every call sequence in which no
`add_mutation` replaces a currently-active id with an inactive mutation
(`remove`, `activate` and `deactivate` need no side condition). -/
theorem mutation_invariant_preserved :
    MSInv ms_initial ∧
    (∀ (s : MutationSystemState) (op : MSOp) (s' : MutationSystemState),
      MSInv s → MSGoodOp s op → ms_apply s op = some s' → MSInv s') := by
  have hempty : MSInv ms_empty := by
    intro id
    simp [ms_empty]
  have h1 := ms_preserve ms_empty (.add regen_base) _ hempty (Or.inl rfl) rfl
  have h2 := ms_preserve _ (.add thick_skin_base) _ h1 (Or.inl rfl) rfl
  have h3 := ms_preserve _ (.add adaptive_base) _ h2 (Or.inl rfl) rfl
  have h4 := ms_preserve _ (.add unstable_base) _ h3 (Or.inl rfl) rfl
  exact ⟨h4, ms_preserve⟩

/-- Witness for C9: activating `"regen"` on the fresh system keeps the
invariant. -/
theorem mutation_invariant_preserved_witness :
    MSGoodOp ms_initial (.activate (str ("regen"))) ∧ MSInv ms_witness_state :=
  ⟨trivial,
   mutation_invariant_preserved.2 ms_initial (.activate (str ("regen"))) ms_witness_state
     mutation_invariant_preserved.1 trivial rfl⟩

/-- Claim C10: `Player.modify_health` keeps health within
`[0, config.max_health]` whenever it starts there, and the configured
maximum is the fixed 100 of the default `PlayerConfig`. -/
theorem modify_health_clamped :
    (∀ (config : PlayerConfig) (health amount : ℚ),
      0 ≤ health → health ≤ config.max_health →
      0 ≤ modify_health config health amount ∧
        modify_health config health amount ≤ config.max_health) ∧
    default_player_config.max_health = 100 := by
  constructor
  · intro config health amount h0 hm
    rw [modify_health]
    exact ⟨le_max_left 0 _, max_le (le_trans h0 hm) (min_le_left _ _)⟩
  · rfl

/-- Witness for C10: a large regen-style heal from health 40 stays at or
below the default maximum of 100. -/
theorem modify_health_clamped_witness :
    (0 ≤ (40 : ℚ) ∧ (40 : ℚ) ≤ default_player_config.max_health) ∧
      (0 ≤ modify_health default_player_config 40 500 ∧
        modify_health default_player_config 40 500 ≤ default_player_config.max_health) :=
  ⟨⟨by norm_num, by norm_num [default_player_config]⟩,
   modify_health_clamped.1 default_player_config 40 500 (by norm_num)
     (by norm_num [default_player_config])⟩

end Simulacra
